import Mathlib

/-!
A shallow embedding of the benchmark-model core of benchexec (file
`benchexec/model.py`): limit resolution in the `Benchmark` constructor,
task-set expansion in `RunSet`, run construction from task-definition files,
the `.yml` routing of task identifiers, and the result classification done by
`Run.set_result` / `Run._analyze_result` / `Run._is_timeout`.

External collaborator modules (`benchexec.util`, `benchexec.result`, the tool
adapter, the file system and the glob primitive) are not part of the source
core; they appear either as explicit function parameters of the embedded
operations or as definitions whose doc comment starts with
`Modelled from the spec:`.

Machine strings are embedded at the character-list level (Python semantics:
code-point comparison, whitespace strip, suffix test) so that every
definition evaluates by kernel reduction.
-/

/-! ## String primitives (Python semantics, character-list level) -/

/-- Lexicographic less-or-equal on character lists by code point, the order
used by Python string comparison and hence by `list.sort()` on file names. -/
def strLeB : List Char → List Char → Bool
  | [], _ => true
  | _ :: _, [] => false
  | a :: as, b :: bs =>
    if a.toNat < b.toNat then true
    else if b.toNat < a.toNat then false
    else strLeB as bs

/-- Propositional form of `strLeB`, the alphabetical order on strings. -/
def StrLe (a b : String) : Prop := strLeB a.data b.data = true

instance : DecidableRel StrLe := fun a b => by unfold StrLe; infer_instance

/-- Whitespace test for the Python `str.strip()` embedding. -/
def isWhitespaceChar (c : Char) : Bool :=
  c = ' ' || c = '\t' || c = '\n' || c = '\r'

/-- Embedding of Python `str.strip()`: drop whitespace from both ends. -/
def py_strip (s : String) : String :=
  ⟨((s.data.dropWhile isWhitespaceChar).reverse.dropWhile isWhitespaceChar).reverse⟩

/-- Embedding of Python `str.endswith(suffix)`. -/
def str_endsWith (s suffix : String) : Bool := suffix.data.isSuffixOf s.data

/-- Embedding of Python `list.sort()` on strings: the unique alphabetically
sorted permutation (insertion sort over `StrLe`). -/
def sortStrings (l : List String) : List String := List.insertionSort StrLe l

/-! ## Constants of the external result module -/

/-- Modelled from the spec: the error verdict constant of the external result
module (`result.RESULT_ERROR`), used for the status carrying a return code
(spec section 4.6 step 1: absent signal but non-zero return value gives an
error status carrying the return code). -/
def RESULT_ERROR : String := "ERROR"

/-- Modelled from the spec: the unspecific bucket of the external result
module (`result.RESULT_LIST_OTHER`), the generic non-answer verdicts such as
ERROR and unknown (spec section 4.6: the adapter verdict is refined only when
it falls into this bucket; TRUE/FALSE-style verdicts are specific and are not
in it). The module is an external collaborator, so the classifier below takes
the bucket as a parameter; this constant is its modelled value, used by the
concrete test inputs. -/
def RESULT_LIST_OTHER : List String := [RESULT_ERROR, "unknown"]

/-! ## Resource limits (`Benchmark.__init__`, model.py lines 219 to 279) -/

/-- The XML-document limit attributes of the benchmark tag (raw strings). -/
structure XmlLimits where
  timelimit : Option String
  hardtimelimit : Option String
  walltimelimit : Option String
  memlimit : Option String
  cpuCores : Option String
deriving DecidableEq

/-- The command-line limit overrides (`config.timelimit` and friends).
Note that the source passes `config.timelimit` as the override for both the
time limit and the hard time limit. -/
structure LimitsConfig where
  timelimit : Option String
  walltimelimit : Option String
  memorylimit : Option String
  corelimit : Option String
deriving DecidableEq

/-- The resolved `self.rlimits` mapping: one optional positive value per limit
kind, absence meaning unbounded. Measured values and limits are embedded as
rationals (only comparisons are performed on them). -/
structure ResourceLimits where
  timelimit : Option ℚ
  hardtimelimit : Option ℚ
  softtimelimit : Option ℚ
  walltimelimit : Option ℚ
  memlimit : Option ℚ
  cpuCores : Option ℚ
deriving DecidableEq

/-- Embedding of the local helper `handle_limit_value` (model.py lines 230 to
250): command-line overrides replace the document value, the sentinel -1
(after strip) removes the limit, parsed values must be positive. The parser
(`util.parse_timespan_value`, `parse_memory_limit`, `int`) is an external
parameter; parse failure and the non-positive check exit fatally, embedded as
`Except.error`. The override step of model.py lines 231 to 237 is split out
as `effective_limit_value`: a command-line value replaces the document value,
the stripped sentinel -1 removes it. -/
def effective_limit_value (xmlValue cmdlineValue : Option String) : Option String :=
  match cmdlineValue with
  | some c => if py_strip c = "-1" then none else some c
  | none => xmlValue

def handle_limit_value (xmlValue cmdlineValue : Option String)
    (parse : String → Except String ℚ) : Except String (Option ℚ) :=
  match effective_limit_value xmlValue cmdlineValue with
  | none => Except.ok none
  | some v =>
    match parse v with
    | Except.error e => Except.error ("Invalid value for limit: " ++ e)
    | Except.ok n =>
      if n ≤ 0 then Except.error ("Limit " ++ v ++ " is invalid, it needs to be a positive number.")
      else Except.ok (some n)

/-- Embedding of the hard-time-limit reconciliation block (model.py lines 266
to 279): pop the hard limit; without a primary limit it becomes primary; a
smaller hard limit is ignored (warning only); a larger one demotes the primary
to the soft limit and becomes primary itself. -/
def reconcile_hard_time_limit (r : ResourceLimits) : ResourceLimits :=
  match r.hardtimelimit with
  | none => r
  | some hard =>
    match r.timelimit with
    | none => { r with hardtimelimit := none, timelimit := some hard }
    | some tl =>
      if hard < tl then { r with hardtimelimit := none }
      else if hard > tl then
        { r with hardtimelimit := none, timelimit := some hard, softtimelimit := some tl }
      else { r with hardtimelimit := none }

/-- Embedding of the limit-resolution part of `Benchmark.__init__` (model.py
lines 252 to 279): the five `handle_limit_value` calls (the time and the hard
time limit share the `config.timelimit` override) followed by the hard-limit
reconciliation. -/
def resolve_limits (parseTime parseMemory parseCore : String → Except String ℚ)
    (xml : XmlLimits) (config : LimitsConfig) : Except String ResourceLimits :=
  match handle_limit_value xml.timelimit config.timelimit parseTime with
  | Except.error e => Except.error e
  | Except.ok t =>
  match handle_limit_value xml.hardtimelimit config.timelimit parseTime with
  | Except.error e => Except.error e
  | Except.ok h =>
  match handle_limit_value xml.walltimelimit config.walltimelimit parseTime with
  | Except.error e => Except.error e
  | Except.ok w =>
  match handle_limit_value xml.memlimit config.memorylimit parseMemory with
  | Except.error e => Except.error e
  | Except.ok m =>
  match handle_limit_value xml.cpuCores config.corelimit parseCore with
  | Except.error e => Except.error e
  | Except.ok c =>
    Except.ok (reconcile_hard_time_limit ⟨t, h, none, w, m, c⟩)

/-! ## Result classification (`Run.set_result`, `_analyze_result`,
`_is_timeout`, model.py lines 967 to 1104) -/

/-- The `ProcessExitCode` of the external util module as used by
`_analyze_result`: an optional normal return value and an optional signal. -/
structure ProcessExitCode where
  value : Option Int
  signal : Option Int
deriving DecidableEq

/-- Python truthiness of an optional integer (None and 0 are falsy). -/
def optIntTruthy : Option Int → Bool
  | none => false
  | some n => n != 0

/-- Python truthiness of an optional string (None and the empty string are
falsy). -/
def optStrTruthy : Option String → Bool
  | none => false
  | some s => s != ""

/-- Embedding of the module-level `_ERROR_RESULTS_FOR_TERMINATION_REASON`
lookup with verbatim fallback (model.py lines 47 to 53 and 1065 to 1067). -/
def error_result_for_termination_reason (tr : String) : String :=
  if tr = "memory" then "OUT OF MEMORY"
  else if tr = "killed" then "KILLED"
  else if tr = "failed" then "FAILED"
  else if tr = "files-count" then "FILES-COUNT LIMIT"
  else if tr = "files-size" then "FILES-SIZE LIMIT"
  else tr

/-- Embedding of the tool-status block of `_analyze_result` (model.py lines
1035 to 1053): ask the adapter for a verdict, and refine verdicts from the
unspecific bucket by well-known signal numbers or a non-zero return value. -/
def refine_tool_status (resultListOther : List String)
    (determine_result : Int → Int → List String → Bool → String)
    (ec : ProcessExitCode) (output : List String) (isTimeout : Bool) : String :=
  let ts := determine_result (ec.value.getD 0) (ec.signal.getD 0) output isTimeout
  if ts ∈ resultListOther then
    if ec.signal = some 6 then "ABORTED"
    else if ec.signal = some 11 then "SEGMENTATION FAULT"
    else if ec.signal = some 15 then "KILLED"
    else if optIntTruthy ec.signal then "KILLED BY SIGNAL " ++ toString (ec.signal.getD 0)
    else if optIntTruthy ec.value then RESULT_ERROR ++ " (" ++ toString (ec.value.getD 0) ++ ")"
    else ts
  else ts

/-- Embedding of the resource-condition status of `_analyze_result` (model.py
lines 1061 to 1067): TIMEOUT wins, then the mapped termination reason. -/
def resource_status (isTimeout : Bool) (termination_reason : Option String) : Option String :=
  if isTimeout then some "TIMEOUT"
  else if optStrTruthy termination_reason then
    some (error_result_for_termination_reason (termination_reason.getD ""))
  else none

/-- Embedding of `Run._analyze_result` (model.py lines 1030 to 1078). The
adapter (`determine_result`) and the unspecific bucket (`resultListOther`) are
external parameters. Returns the final status, `none` embedding Python None. -/
def analyze_result (resultListOther : List String)
    (determine_result : Int → Int → List String → Bool → String)
    (exitcode : Option ProcessExitCode) (output : List String)
    (isTimeout : Bool) (termination_reason : Option String) : Option String :=
  let tool_status : Option String :=
    exitcode.map fun ec => refine_tool_status resultListOther determine_result ec output isTimeout
  match resource_status isTimeout termination_reason, tool_status with
  | none, ts => ts
  | some s, none => some s
  | some s, some ts =>
    if ts ≠ "" ∧ ts ∉ resultListOther ++ [s, "KILLED", "KILLED BY SIGNAL 9"] then
      some (s ++ " (" ++ ts ++ ")")
    else some s

/-- Embedding of `Run._is_timeout` (model.py lines 1080 to 1104): the measured
cpu time is compared against the soft time limit if present, else the primary
time limit, else unbounded; the measured wall time against the wall-time
limit. -/
def is_timeout (rlimits : ResourceLimits) (cputime walltime : Option ℚ) : Bool :=
  let is_cpulimit :=
    match cputime with
    | none => false
    | some ct =>
      match rlimits.softtimelimit with
      | some l => decide (ct > l)
      | none =>
        match rlimits.timelimit with
        | some l => decide (ct > l)
        | none => false
  let is_walllimit :=
    match walltime with
    | none => false
    | some wt =>
      match rlimits.walltimelimit with
      | some l => decide (wt > l)
      | none => false
  is_cpulimit || is_walllimit

/-- Embedding of the timeout determination of `Run.set_result` (model.py
lines 1000 to 1003): a cputime, cputime-soft or walltime termination reason,
or an independently detected `_is_timeout` condition. -/
def compute_is_timeout (termination_reason : Option String)
    (rlimits : ResourceLimits) (cputime walltime : Option ℚ) : Bool :=
  decide (termination_reason ∈ [some "cputime", some "cputime-soft", some "walltime"]) ||
    is_timeout rlimits cputime walltime

/-- The status computed by `Run.set_result` (model.py lines 995 to 1017):
`_analyze_result` applied to the timeout flag of `compute_is_timeout`. -/
def set_result_status (resultListOther : List String)
    (determine_result : Int → Int → List String → Bool → String)
    (exitcode : Option ProcessExitCode) (output : List String)
    (rlimits : ResourceLimits) (termination_reason : Option String)
    (cputime walltime : Option ℚ) : Option String :=
  analyze_result resultListOther determine_result exitcode output
    (compute_is_timeout termination_reason rlimits cputime walltime) termination_reason

/-! ## Variable substitution for task files and task routing
(`substitute_vars` lines 82 to 88, `extract_runs_from_xml` lines 534 to 551) -/

/-- Embedding of the `var_prefix` selection in `substitute_vars` (model.py
line 83): `taskdef_` for files ending in `.yml`, `inputfile_` otherwise. -/
def var_prefix_of (task_file : String) : String :=
  if str_endsWith task_file ".yml" then "taskdef_" else "inputfile_"

/-- Embedding of the task-file entries appended to the substitution map in
`substitute_vars` (model.py lines 82 to 88). The path helpers
(`os.path.basename`, `os.path.dirname`, `os.path.abspath`) are external
parameters. -/
def task_file_key_values (basename dirname abspath : String → String)
    (task_file : String) : List (String × String) :=
  let vp := var_prefix_of task_file
  [(vp ++ "name", basename task_file),
   (vp ++ "path", if dirname task_file = "" then "." else dirname task_file),
   (vp ++ "path_abs", dirname (abspath task_file))]

/-- How a task identifier is turned into a Run. -/
inductive RunCreation where
  | fromTaskDefinition : RunCreation
  | fromInputFile : RunCreation
deriving DecidableEq

/-- Embedding of the per-identifier dispatch in `extract_runs_from_xml`
(model.py lines 536 to 551): identifiers ending in `.yml` are parsed as task
definitions and may not be combined with append tags; all others become plain
input-file runs. -/
def route_identifier (identifier : String) (hasAppendTags : Bool) :
    Except String RunCreation :=
  if str_endsWith identifier ".yml" then
    if hasAppendTags then
      Except.error "Cannot combine append and task-definition files in the same tasks tag."
    else Except.ok RunCreation.fromTaskDefinition
  else Except.ok RunCreation.fromInputFile

/-! ## Task-set expansion (`RunSet.get_task_def_files_from_xml` lines 583 to
650, `RunSet.expand_filename_pattern` lines 798 to 824) -/

/-- Modelled from the spec: the comment test of the external util module
(`util.is_comment`), spec section 4.4: blank lines and comment lines of a
list-reference file are skipped. A line counts as a comment when, after the
strip already applied by the caller, it is empty or starts with a comment
marker. -/
def is_comment (line : String) : Bool :=
  line.data.isEmpty || "#".data.isPrefixOf line.data || "//".data.isPrefixOf line.data

/-- Modelled from the spec: the content check of the external util module
(`util.is_code`), spec sections 4.4 and 8: a list-reference file whose content
looks like structured/code data, witnessed by a line starting with an opening
brace, must be rejected. -/
def is_code (lines : List String) : Bool :=
  lines.any fun l => "\x7b".data.isPrefixOf (py_strip l).data

/-- Modelled from the spec: `util.remove_all`, spec section 4.4: exclusion
removes every match from the accumulated list, by exact value. -/
def remove_all (xs : List String) (v : String) : List String :=
  xs.filter fun x => x ≠ v

/-- Embedding of `RunSet.expand_filename_pattern` (model.py lines 798 to 824):
variable substitution, then the external glob primitive, then an alphabetical
sort. The glob (`util.expand_filename_pattern`) and the substitution context
are external parameters. -/
def expand_filename_pattern (expandGlob : String → String → List String)
    (subst : String → String) (pattern base_dir : String) : List String :=
  sortStrings (expandGlob (subst pattern) base_dir)

/-- The include-tag loop (model.py lines 590 to 591): concatenation of each
include pattern expansion, without deduplication. -/
def include_task_files (expandGlob : String → String → List String)
    (subst : String → String) (patterns : List String) (base_dir : String) : List String :=
  patterns.foldl (fun acc p => acc ++ expand_filename_pattern expandGlob subst p base_dir) []

/-- The line loop over one list-reference file (model.py lines 609 to 621):
strip each line, skip comments, expand the rest relative to the directory of
the list file. -/
def read_list_file_lines (expandGlob : String → String → List String)
    (subst : String → String) (dirname : String → String)
    (file : String) (lines : List String) (acc : List String) : List String :=
  lines.foldl
    (fun acc rawline =>
      let line := py_strip rawline
      if is_comment line then acc
      else acc ++ expand_filename_pattern expandGlob subst line (dirname file))
    acc

/-- The file loop over the expansion of one includesfile pattern (model.py
lines 596 to 621): a file whose content is code is rejected fatally before its
lines are used. -/
def process_includes_file_list (expandGlob : String → String → List String)
    (subst : String → String) (fs : String → List String) (dirname : String → String) :
    List String → List String → Except String (List String)
  | [], acc => Except.ok acc
  | file :: rest, acc =>
    if is_code (fs file) then
      Except.error (file ++ " seems to contain code instead of a set of source file names.")
    else
      process_includes_file_list expandGlob subst fs dirname rest
        (read_list_file_lines expandGlob subst dirname file (fs file) acc)

/-- The includesfile-tag loop (model.py lines 594 to 621). -/
def process_includesfile_patterns (expandGlob : String → String → List String)
    (subst : String → String) (fs : String → List String) (dirname : String → String)
    (base_dir : String) :
    List String → List String → Except String (List String)
  | [], acc => Except.ok acc
  | pat :: rest, acc =>
    match process_includes_file_list expandGlob subst fs dirname
        (expand_filename_pattern expandGlob subst pat base_dir) acc with
    | Except.error e => Except.error e
    | Except.ok acc2 =>
      process_includesfile_patterns expandGlob subst fs dirname base_dir rest acc2

/-- The exclude-tag loop (model.py lines 624 to 629): remove every occurrence
of every match of every exclude pattern. -/
def apply_excludes (expandGlob : String → String → List String)
    (subst : String → String) (patterns : List String) (base_dir : String)
    (files : List String) : List String :=
  patterns.foldl
    (fun acc pat => (expand_filename_pattern expandGlob subst pat base_dir).foldl remove_all acc)
    files

/-- One stripped line of an excludesfile list file (model.py lines 635 to
646): skip comments, expand, remove every match. -/
def exclude_lines_step (expandGlob : String → String → List String)
    (subst : String → String) (dirname : String → String) (file : String)
    (acc : List String) (rawline : String) : List String :=
  let line := py_strip rawline
  if is_comment line then acc
  else (expand_filename_pattern expandGlob subst line (dirname file)).foldl remove_all acc

/-- One file of an excludesfile pattern expansion (model.py lines 632 to 648). -/
def exclude_file_step (expandGlob : String → String → List String)
    (subst : String → String) (fs : String → List String) (dirname : String → String)
    (acc : List String) (file : String) : List String :=
  (fs file).foldl (exclude_lines_step expandGlob subst dirname file) acc

/-- The excludesfile-tag loop (model.py lines 631 to 648). -/
def apply_excludesfiles (expandGlob : String → String → List String)
    (subst : String → String) (fs : String → List String) (dirname : String → String)
    (patterns : List String) (base_dir : String) (files : List String) : List String :=
  patterns.foldl
    (fun acc pat =>
      (expand_filename_pattern expandGlob subst pat base_dir).foldl
        (exclude_file_step expandGlob subst fs dirname) acc)
    files

/-- One tasks tag of the XML definition, the input of
`get_task_def_files_from_xml`: the texts of its include, includesfile, exclude
and excludesfile children. -/
structure SourcefilesTag where
  includes : List String
  includesfiles : List String
  excludes : List String
  excludesfiles : List String
deriving DecidableEq

/-- Embedding of `RunSet.get_task_def_files_from_xml` (model.py lines 583 to
650): accumulate include expansions and includesfile-line expansions, then
remove exclude matches and excludesfile-line matches. The file system (`fs`,
path to content lines) and `os.path.dirname` are external parameters. -/
def get_task_def_files_from_xml (expandGlob : String → String → List String)
    (subst : String → String) (fs : String → List String) (dirname : String → String)
    (tag : SourcefilesTag) (base_dir : String) : Except String (List String) :=
  match process_includesfile_patterns expandGlob subst fs dirname base_dir tag.includesfiles
      (include_task_files expandGlob subst tag.includes base_dir) with
  | Except.error e => Except.error e
  | Except.ok files =>
    Except.ok (apply_excludesfiles expandGlob subst fs dirname tag.excludesfiles base_dir
      (apply_excludes expandGlob subst tag.excludes base_dir files))

/-! ## Run construction from task-definition files
(`RunSet.create_run_from_task_definition`, model.py lines 691 to 796) -/

/-- The `ExpectedResult` of the external result module: an optional boolean
verdict and an optional subproperty. -/
structure ExpectedResult where
  result : Option Bool
  subproperty : Option String
deriving DecidableEq

/-- One entry of the `properties` list of a task-definition document. The
shape checks of the source (entry must be a mapping with a `property_file`
key, `expected_verdict` must be a boolean if present) are enforced by the
types of this embedding. -/
structure TaskDefProp where
  property_file : String
  expected_verdict : Option Bool
  subproperty : Option String
deriving DecidableEq

/-- The pattern fields of a parsed task-definition document used by
`create_run_from_task_definition`. -/
structure TaskDef where
  input_files : List String
  required_files : List String
  properties : List TaskDefProp
deriving DecidableEq

/-- The part of a constructed `Run` that `create_run_from_task_definition`
determines: the identifier, the expanded input and required files, and the
expected-results mapping (a Python dict, embedded as an association list with
insertion order and overwriting update). -/
structure TaskDefRun where
  identifier : String
  input_files : List String
  required_files : List String
  expected_results : List (String × ExpectedResult)
deriving DecidableEq

/-- Python dict update `d[k] = v`: overwrite in place if the key exists, else
append. -/
def dict_insert (d : List (String × ExpectedResult)) (k : String)
    (v : ExpectedResult) : List (String × ExpectedResult) :=
  if d.any (fun p => p.1 == k) then
    d.map fun p => if p.1 == k then (k, v) else p
  else d ++ [(k, v)]

/-- Embedding of the local `expand_patterns_from_tag` (model.py lines 697 to
717): each pattern is glob-expanded relative to the task-definition directory,
must match at least one path, is sorted, and the results are concatenated. -/
def expand_patterns_from_tag (expandGlob : String → String → List String)
    (task_dir : String) : List String → Except String (List String)
  | [] => Except.ok []
  | p :: rest =>
    let expanded := expandGlob p task_dir
    if expanded.isEmpty then
      Except.error ("Pattern " ++ p ++ " in task-definition file did not match any paths.")
    else
      match expand_patterns_from_tag expandGlob task_dir rest with
      | Except.error e => Except.error e
      | Except.ok r => Except.ok (sortStrings expanded ++ r)

/-- Embedding of the properties loop of `create_run_from_task_definition`
(model.py lines 747 to 780): each declared property file must expand to
exactly one path; an entry matching the resolved property file (by path
identity or by the external `samefile` test) stores its expected verdict in
the dict under the key `prop.filename`, the resolved property file itself. -/
def process_prop_dicts (expandGlob : String → String → List String)
    (samefile : String → String → Bool) (prop_filename task_dir : String) :
    List TaskDefProp → List (String × ExpectedResult) →
    Except String (List (String × ExpectedResult))
  | [], acc => Except.ok acc
  | pd :: rest, acc =>
    match expandGlob pd.property_file task_dir with
    | [expanded0] =>
      if prop_filename == expanded0 || samefile prop_filename expanded0 then
        process_prop_dicts expandGlob samefile prop_filename task_dir rest
          (dict_insert acc prop_filename ⟨pd.expected_verdict, pd.subproperty⟩)
      else
        process_prop_dicts expandGlob samefile prop_filename task_dir rest acc
    | _ =>
      Except.error "Property pattern in task-definition file does not refer to exactly one file."

/-- Embedding of `RunSet.create_run_from_task_definition` (model.py lines 691
to 796). `propertyfile` is the resolved property file of the run (the
`prop.filename` of `result.Property.create`, modelled from the spec as the
resolved path itself). Returns `Except.ok none` for the silent skip of a run
whose task definition does not declare the resolved property. -/
def create_run_from_task_definition (expandGlob : String → String → List String)
    (samefile : String → String → Bool) (task_def : TaskDef)
    (task_def_file task_dir : String) (propertyfile : Option String) :
    Except String (Option TaskDefRun) :=
  match expand_patterns_from_tag expandGlob task_dir task_def.input_files with
  | Except.error e => Except.error e
  | Except.ok input_files =>
    if input_files.isEmpty then
      Except.error ("Task-definition file " ++ task_def_file ++ " does not define any input files.")
    else
      match expand_patterns_from_tag expandGlob task_dir task_def.required_files with
      | Except.error e => Except.error e
      | Except.ok required_files =>
        match propertyfile with
        | none => Except.ok (some ⟨task_def_file, input_files, required_files, []⟩)
        | some prop_filename =>
          match process_prop_dicts expandGlob samefile prop_filename task_dir
              task_def.properties [] with
          | Except.error e => Except.error e
          | Except.ok expected =>
            if expected.isEmpty then Except.ok none
            else if 1 < expected.length then
              Except.error ("Property " ++ prop_filename ++
                " specified multiple times in task-definition file " ++ task_def_file ++ ".")
            else Except.ok (some ⟨task_def_file, input_files, required_files, expected⟩)

/-! ## Order facts for the string comparison -/

theorem strLeB_total : ∀ x y : List Char, strLeB x y = true ∨ strLeB y x = true := by
  intro x
  induction x with
  | nil => intro y; left; rfl
  | cons a as ih =>
    intro y
    cases y with
    | nil => right; rfl
    | cons b bs =>
      rcases Nat.lt_trichotomy a.toNat b.toNat with h | h | h
      · left; simp [strLeB, h]
      · rcases ih bs with h2 | h2
        · left; simp [strLeB, h, h2]
        · right; simp [strLeB, h, h2]
      · right; simp [strLeB, h, Nat.lt_asymm h]

theorem strLeB_trans : ∀ x y z : List Char,
    strLeB x y = true → strLeB y z = true → strLeB x z = true := by
  intro x
  induction x with
  | nil => intro y z _ _; rfl
  | cons a as ih =>
    intro y z hxy hyz
    cases y with
    | nil => simp [strLeB] at hxy
    | cons b bs =>
      cases z with
      | nil => simp [strLeB] at hyz
      | cons c cs =>
        simp only [strLeB] at hxy hyz ⊢
        rcases Nat.lt_trichotomy a.toNat b.toNat with hab | hab | hab
        · rcases Nat.lt_trichotomy b.toNat c.toNat with hbc | hbc | hbc
          · simp [Nat.lt_trans hab hbc]
          · simp [hbc ▸ hab]
          · simp [strLeB, hbc, Nat.lt_asymm hbc] at hyz
        · rcases Nat.lt_trichotomy b.toNat c.toNat with hbc | hbc | hbc
          · simp [hab ▸ hbc]
          · have hac : a.toNat = c.toNat := hab.trans hbc
            rw [if_neg (by omega), if_neg (by omega)] at hxy
            rw [if_neg (by omega), if_neg (by omega)] at hyz
            rw [if_neg (by omega), if_neg (by omega)]
            exact ih bs cs hxy hyz
          · simp [Nat.lt_asymm hbc, hbc] at hyz
        · simp [Nat.lt_asymm hab, hab] at hxy

instance : IsTotal String StrLe := ⟨fun a b => strLeB_total a.data b.data⟩

instance : IsTrans String StrLe := ⟨fun a b c => strLeB_trans a.data b.data c.data⟩

/-- Each single-pattern expansion of the run-set level pattern expansion is
alphabetically sorted, because the source sorts every expansion. -/
theorem expand_filename_pattern_sorted (expandGlob : String → String → List String)
    (subst : String → String) (pattern base_dir : String) :
    List.Sorted StrLe (expand_filename_pattern expandGlob subst pattern base_dir) :=
  List.sorted_insertionSort StrLe _

/-! ## Generic facts about removal folds -/

theorem mem_remove_all {xs : List String} {v x : String} :
    x ∈ remove_all xs v ↔ x ∈ xs ∧ x ≠ v := by
  simp [remove_all]

theorem remove_all_subset (xs : List String) (v : String) : remove_all xs v ⊆ xs :=
  fun _ hx => (mem_remove_all.mp hx).1

theorem not_mem_remove_all (xs : List String) (v : String) : v ∉ remove_all xs v := by
  intro h
  exact (mem_remove_all.mp h).2 rfl

theorem foldl_subset {β : Type} (g : List String → β → List String)
    (hg : ∀ acc b, g acc b ⊆ acc) :
    ∀ (l : List β) (acc : List String), l.foldl g acc ⊆ acc := by
  intro l
  induction l with
  | nil => intro acc; exact fun _ h => h
  | cons b rest ih =>
    intro acc
    exact (ih (g acc b)).trans (hg acc b)

theorem not_mem_foldl_of_not_mem {β : Type} (g : List String → β → List String)
    (hg : ∀ acc b, g acc b ⊆ acc) {e : String} :
    ∀ (l : List β) (acc : List String), e ∉ acc → e ∉ l.foldl g acc := by
  intro l acc h hmem
  exact h (foldl_subset g hg l acc hmem)

theorem not_mem_foldl_of_kill {β : Type} (g : List String → β → List String)
    (hg : ∀ acc b, g acc b ⊆ acc) {e : String} {b : β}
    (hk : ∀ acc, e ∉ g acc b) :
    ∀ (l : List β) (acc : List String), b ∈ l → e ∉ l.foldl g acc := by
  intro l
  induction l with
  | nil => intro acc h; cases h
  | cons b2 rest ih =>
    intro acc hb
    rcases List.mem_cons.mp hb with rfl | hb2
    · exact not_mem_foldl_of_not_mem g hg rest (g acc b) (hk acc)
    · exact ih (g acc b2) hb2

/-! ## Facts about the result classifier -/

theorem resource_status_eq_none {isTimeout : Bool} {tr : Option String}
    (h : resource_status isTimeout tr = none) :
    isTimeout = false ∧ optStrTruthy tr = false := by
  by_cases hT : isTimeout = true
  · simp [resource_status, hT] at h
  · by_cases htr : optStrTruthy tr = true
    · simp [resource_status, hT, htr] at h
    · exact ⟨by simpa using hT, by simpa using htr⟩

/-- C1 (counterexample): with signal 11, no termination reason and no timeout,
an adapter verdict outside the unspecific bucket (here TRUE) is kept
unchanged, so the final status is not SEGMENTATION FAULT: the refinement by
signal numbers is applied only to unspecific verdicts (model.py line 1041). -/
theorem analyze_result_signal11_specific_verdict_counterexample :
    analyze_result RESULT_LIST_OTHER (fun _ _ _ _ => "TRUE")
        (some ⟨none, some 11⟩) [] false none = some "TRUE" ∧
      (some "TRUE" : Option String) ≠ some "SEGMENTATION FAULT" :=
  ⟨rfl, by decide⟩

/-- C1 (amended): for every completed run with a present exit descriptor whose
signal is 11, no declared termination reason and no timeout, whose adapter
verdict falls into the unspecific bucket, the final status is
SEGMENTATION FAULT. -/
theorem analyze_result_signal11_unspecific_segfault
    (resultListOther : List String)
    (determine_result : Int → Int → List String → Bool → String)
    (ec : ProcessExitCode) (output : List String) (termination_reason : Option String)
    (h11 : ec.signal = some 11)
    (hunspec : determine_result (ec.value.getD 0) 11 output false ∈ resultListOther)
    (htr : optStrTruthy termination_reason = false) :
    analyze_result resultListOther determine_result (some ec) output false termination_reason
      = some "SEGMENTATION FAULT" := by
  have hrs : resource_status false termination_reason = none := by
    simp [resource_status, htr]
  have hts : refine_tool_status resultListOther determine_result ec output false
      = "SEGMENTATION FAULT" := by
    unfold refine_tool_status
    rw [h11]
    simp only [Option.getD_some]
    rw [if_pos hunspec, if_neg (by decide)]
    simp
  simp [analyze_result, hrs, hts]

theorem analyze_result_signal11_unspecific_segfault_witness :
    analyze_result ["unknown"] (fun _ _ _ _ => "unknown")
      (some ⟨none, some 11⟩) [] false none = some "SEGMENTATION FAULT" :=
  analyze_result_signal11_unspecific_segfault ["unknown"] (fun _ _ _ _ => "unknown")
    ⟨none, some 11⟩ [] none rfl (by decide) rfl

/-- C2 (counterexample): with an absent exit descriptor, no timeout and no
termination reason, `_analyze_result` returns Python None, not a status
string. -/
theorem analyze_result_unobserved_counterexample :
    analyze_result [] (fun _ _ _ _ => "UNKNOWN") none [] false none = none ∧
      (analyze_result [] (fun _ _ _ _ => "UNKNOWN") none [] false none).isSome = false :=
  ⟨rfl, rfl⟩

/-- C2 (amended): the classification step produces a final status string
whenever the exit descriptor is present, or a timeout was detected, or a
non-empty termination reason was declared; in the remaining case (absent
descriptor, no timeout, no termination reason) it yields no status. -/
theorem analyze_result_produces_status_of_observed
    (resultListOther : List String)
    (determine_result : Int → Int → List String → Bool → String)
    (exitcode : Option ProcessExitCode) (output : List String)
    (isTimeout : Bool) (termination_reason : Option String)
    (h : exitcode.isSome = true ∨ isTimeout = true ∨ optStrTruthy termination_reason = true) :
    (analyze_result resultListOther determine_result exitcode output isTimeout
      termination_reason).isSome = true := by
  rcases hrs : resource_status isTimeout termination_reason with _ | s
  · have hft := resource_status_eq_none hrs
    rcases h with h | h | h
    · rcases exitcode with _ | ec
      · simp at h
      · simp [analyze_result, hrs]
    · rw [hft.1] at h; cases h
    · rw [hft.2] at h; cases h
  · rcases exitcode with _ | ec
    · simp [analyze_result, hrs]
    · simp only [analyze_result, Option.map, hrs]
      split <;> simp

theorem analyze_result_produces_status_of_observed_witness :
    (analyze_result [] (fun _ _ _ _ => "TRUE") (some ⟨some 0, none⟩) [] false none).isSome
      = true :=
  analyze_result_produces_status_of_observed [] (fun _ _ _ _ => "TRUE")
    (some ⟨some 0, none⟩) [] false none (Or.inl rfl)

/-- C6: when the status comes from a resource-limit condition (timeout or
mapped termination reason, together: `resource_status = some s`) while the
adapter reported a verdict that is non-empty, not in the unspecific bucket,
differs from the resource-condition label and is neither KILLED nor
KILLED BY SIGNAL 9, the final status is the combination
`s ( verdict )` (model.py lines 1069 to 1076). -/
theorem analyze_result_combines_resource_status_with_specific_verdict
    (resultListOther : List String)
    (determine_result : Int → Int → List String → Bool → String)
    (ec : ProcessExitCode) (output : List String)
    (isTimeout : Bool) (termination_reason : Option String) (s ts : String)
    (hs : resource_status isTimeout termination_reason = some s)
    (hts : ts = determine_result (ec.value.getD 0) (ec.signal.getD 0) output isTimeout)
    (h1 : ts ∉ resultListOther) (h2 : ts ≠ s) (h3 : ts ≠ "KILLED")
    (h4 : ts ≠ "KILLED BY SIGNAL 9") (h5 : ts ≠ "") :
    analyze_result resultListOther determine_result (some ec) output isTimeout
      termination_reason = some (s ++ " (" ++ ts ++ ")") := by
  have hrefine : refine_tool_status resultListOther determine_result ec output isTimeout = ts := by
    unfold refine_tool_status
    rw [← hts]
    exact if_neg h1
  have hnot : ts ∉ resultListOther ++ [s, "KILLED", "KILLED BY SIGNAL 9"] := by
    simp only [List.mem_append, List.mem_cons, List.not_mem_nil, or_false]
    push_neg
    exact ⟨h1, h2, h3, h4⟩
  simp only [analyze_result, Option.map, hs, hrefine]
  rw [if_pos ⟨h5, hnot⟩]

theorem analyze_result_combines_resource_status_with_specific_verdict_witness :
    analyze_result RESULT_LIST_OTHER (fun _ _ _ _ => "FALSE(reach)")
      (some ⟨some 0, none⟩) [] false (some "memory")
      = some "OUT OF MEMORY (FALSE(reach))" :=
  analyze_result_combines_resource_status_with_specific_verdict RESULT_LIST_OTHER
    (fun _ _ _ _ => "FALSE(reach)") ⟨some 0, none⟩ [] false (some "memory")
    "OUT OF MEMORY" "FALSE(reach)" rfl rfl (by decide) (by decide) (by decide) (by decide)
    (by decide)

/-- C7 (counterexample): the timeout condition holds (cputime 20 over the
primary limit 10) but the final status is the combined
TIMEOUT (FALSE(reach)), not the plain string TIMEOUT, because the adapter
still reported a specific verdict. -/
theorem timeout_status_not_exact_counterexample :
    compute_is_timeout none ⟨some 10, none, none, none, none, none⟩ (some 20) none = true ∧
      set_result_status RESULT_LIST_OTHER (fun _ _ _ _ => "FALSE(reach)")
          (some ⟨some 0, none⟩) [] ⟨some 10, none, none, none, none, none⟩ none (some 20) none
        = some "TIMEOUT (FALSE(reach))" ∧
      (some "TIMEOUT (FALSE(reach))" : Option String) ≠ some "TIMEOUT" :=
  ⟨by decide, rfl, by decide⟩

/-- C7 (amended): whenever the declared termination reason is cputime,
cputime-soft or walltime, or measured cpu time exceeds the effective time
limit (the soft limit if present, else the primary limit, else unbounded), or
measured wall time exceeds the wall-time limit, the status chosen by
`set_result` is TIMEOUT, possibly combined with a still-reported adapter
verdict as `TIMEOUT ( verdict )`; this condition takes precedence over every
other declared termination reason. -/
theorem timeout_condition_forces_timeout_status
    (resultListOther : List String)
    (determine_result : Int → Int → List String → Bool → String)
    (exitcode : Option ProcessExitCode) (output : List String)
    (rlimits : ResourceLimits) (termination_reason : Option String)
    (cputime walltime : Option ℚ)
    (h : compute_is_timeout termination_reason rlimits cputime walltime = true) :
    set_result_status resultListOther determine_result exitcode output rlimits
        termination_reason cputime walltime = some "TIMEOUT" ∨
      ∃ ts, set_result_status resultListOther determine_result exitcode output rlimits
        termination_reason cputime walltime = some ("TIMEOUT (" ++ ts ++ ")") := by
  unfold set_result_status
  rw [h]
  have hrs : resource_status true termination_reason = some "TIMEOUT" := rfl
  rcases exitcode with _ | ec
  · left; simp [analyze_result, hrs]
  · simp only [analyze_result, Option.map, hrs]
    split
    · right; exact ⟨_, rfl⟩
    · left; rfl

theorem timeout_condition_forces_timeout_status_witness :
    set_result_status [] (fun _ _ _ _ => "x") none [] ⟨none, none, none, none, none, none⟩
        (some "cputime") none none = some "TIMEOUT" ∨
      ∃ ts, set_result_status [] (fun _ _ _ _ => "x") none []
        ⟨none, none, none, none, none, none⟩ (some "cputime") none none
        = some ("TIMEOUT (" ++ ts ++ ")") :=
  timeout_condition_forces_timeout_status [] (fun _ _ _ _ => "x") none []
    ⟨none, none, none, none, none, none⟩ (some "cputime") none none (by decide)

/-! ## Facts about limit resolution -/

theorem handle_limit_value_pos {x c : Option String} {p : String → Except String ℚ} {v : ℚ}
    (h : handle_limit_value x c p = Except.ok (some v)) : 0 < v := by
  rcases hval : effective_limit_value x c with _ | raw
  · simp [handle_limit_value, hval] at h
  · simp only [handle_limit_value, hval] at h
    rcases hp : p raw with e | n
    · simp [hp] at h
    · simp only [hp] at h
      by_cases hn : n ≤ 0
      · rw [if_pos hn] at h; simp at h
      · rw [if_neg hn] at h
        simp only [Except.ok.injEq, Option.some.injEq] at h
        rw [← h]
        exact lt_of_not_ge hn

theorem handle_limit_value_neg1 (x : Option String) (p : String → Except String ℚ) :
    handle_limit_value x (some "-1") p = Except.ok none := rfl

/-- C5: the hard-time-limit reconciliation of the benchmark constructor.
Conjunct one: the hard-time-limit key is never retained. Conjunct two: with a
hard limit present, (a) without a primary time limit the hard limit becomes
primary, (b) a strictly smaller hard limit is dropped and nothing else
changes, (c) a strictly larger hard limit demotes the primary limit to the
soft time limit and becomes primary itself. -/
theorem hard_time_limit_reconciliation (t hh s w m c : Option ℚ) :
    (reconcile_hard_time_limit ⟨t, hh, s, w, m, c⟩).hardtimelimit = none ∧
    (∀ hard, hh = some hard →
      (t = none →
        reconcile_hard_time_limit ⟨t, hh, s, w, m, c⟩ = ⟨some hard, none, s, w, m, c⟩) ∧
      (∀ tl, t = some tl →
        (hard < tl →
          reconcile_hard_time_limit ⟨t, hh, s, w, m, c⟩ = ⟨some tl, none, s, w, m, c⟩) ∧
        (hard > tl →
          reconcile_hard_time_limit ⟨t, hh, s, w, m, c⟩
            = ⟨some hard, none, some tl, w, m, c⟩))) := by
  cases hh with
  | none => exact ⟨rfl, fun hard h => by cases h⟩
  | some hv =>
    cases t with
    | none =>
      refine ⟨rfl, fun hard h => ?_⟩
      obtain rfl : hv = hard := by injection h
      exact ⟨fun _ => rfl, fun tl htl => by cases htl⟩
    | some tv =>
      constructor
      · simp only [reconcile_hard_time_limit]
        split
        · rfl
        · split <;> rfl
      · intro hard h
        obtain rfl : hv = hard := by injection h
        constructor
        · intro hnone; cases hnone
        · intro tl htl
          obtain rfl : tv = tl := by injection htl
          constructor
          · intro hlt
            simp only [reconcile_hard_time_limit]
            rw [if_pos hlt]
          · intro hgt
            simp only [reconcile_hard_time_limit]
            rw [if_neg (not_lt_of_gt hgt), if_pos hgt]

theorem hard_time_limit_reconciliation_witness :
    reconcile_hard_time_limit ⟨some 10, some 20, none, none, none, none⟩
      = ⟨some 20, none, some 10, none, none, none⟩ :=
  (((hard_time_limit_reconciliation (some 10) (some 20) none none none
    none).2 20 rfl).2 10 rfl).2 (by norm_num)

theorem reconcile_hard_time_limit_fields (t hd s w m c : Option ℚ) :
    ((reconcile_hard_time_limit ⟨t, hd, s, w, m, c⟩).timelimit = t ∨
      (reconcile_hard_time_limit ⟨t, hd, s, w, m, c⟩).timelimit = hd) ∧
    ((reconcile_hard_time_limit ⟨t, hd, s, w, m, c⟩).softtimelimit = s ∨
      (reconcile_hard_time_limit ⟨t, hd, s, w, m, c⟩).softtimelimit = t) ∧
    (reconcile_hard_time_limit ⟨t, hd, s, w, m, c⟩).walltimelimit = w ∧
    (reconcile_hard_time_limit ⟨t, hd, s, w, m, c⟩).memlimit = m ∧
    (reconcile_hard_time_limit ⟨t, hd, s, w, m, c⟩).cpuCores = c := by
  cases hd with
  | none => exact ⟨Or.inl rfl, Or.inl rfl, rfl, rfl, rfl⟩
  | some hv =>
    cases t with
    | none => exact ⟨Or.inr rfl, Or.inl rfl, rfl, rfl, rfl⟩
    | some tv =>
      simp only [reconcile_hard_time_limit]
      split
      · exact ⟨Or.inl rfl, Or.inl rfl, rfl, rfl, rfl⟩
      · split
        · exact ⟨Or.inr rfl, Or.inr rfl, rfl, rfl, rfl⟩
        · exact ⟨Or.inl rfl, Or.inl rfl, rfl, rfl, rfl⟩

/-- C8: in every successfully resolved limits mapping every present value is
strictly positive, and a -1 command-line override leaves the corresponding
limit kind absent. -/
theorem resolve_limits_positive_and_neg1_absent
    (parseTime parseMemory parseCore : String → Except String ℚ)
    (xml : XmlLimits) (config : LimitsConfig) (r : ResourceLimits)
    (h : resolve_limits parseTime parseMemory parseCore xml config = Except.ok r) :
    (∀ v, r.timelimit = some v → 0 < v) ∧
    (∀ v, r.softtimelimit = some v → 0 < v) ∧
    (∀ v, r.walltimelimit = some v → 0 < v) ∧
    (∀ v, r.memlimit = some v → 0 < v) ∧
    (∀ v, r.cpuCores = some v → 0 < v) ∧
    (config.timelimit = some "-1" → r.timelimit = none) ∧
    (config.walltimelimit = some "-1" → r.walltimelimit = none) ∧
    (config.memorylimit = some "-1" → r.memlimit = none) ∧
    (config.corelimit = some "-1" → r.cpuCores = none) := by
  unfold resolve_limits at h
  rcases ht : handle_limit_value xml.timelimit config.timelimit parseTime with e | t
  · rw [ht] at h; cases h
  rw [ht] at h
  rcases hh : handle_limit_value xml.hardtimelimit config.timelimit parseTime with e | hd
  · rw [hh] at h; cases h
  rw [hh] at h
  rcases hw : handle_limit_value xml.walltimelimit config.walltimelimit parseTime with e | w
  · rw [hw] at h; cases h
  rw [hw] at h
  rcases hm : handle_limit_value xml.memlimit config.memorylimit parseMemory with e | m
  · rw [hm] at h; cases h
  rw [hm] at h
  rcases hc : handle_limit_value xml.cpuCores config.corelimit parseCore with e | c
  · rw [hc] at h; cases h
  rw [hc] at h
  simp only [Except.ok.injEq] at h
  subst h
  have hfields := reconcile_hard_time_limit_fields t hd none w m c
  refine ⟨?_, ?_, ?_, ?_, ?_, ?_, ?_, ?_, ?_⟩
  · intro v hv
    rcases hfields.1 with he | he <;> rw [he] at hv
    · exact handle_limit_value_pos (hv ▸ ht)
    · exact handle_limit_value_pos (hv ▸ hh)
  · intro v hv
    rcases hfields.2.1 with he | he <;> rw [he] at hv
    · cases hv
    · exact handle_limit_value_pos (hv ▸ ht)
  · intro v hv
    rw [hfields.2.2.1] at hv
    exact handle_limit_value_pos (hv ▸ hw)
  · intro v hv
    rw [hfields.2.2.2.1] at hv
    exact handle_limit_value_pos (hv ▸ hm)
  · intro v hv
    rw [hfields.2.2.2.2] at hv
    exact handle_limit_value_pos (hv ▸ hc)
  · intro hcfg
    rw [hcfg] at ht hh
    obtain rfl : t = none :=
      (Except.ok.inj ((handle_limit_value_neg1 xml.timelimit parseTime).symm.trans ht)).symm
    obtain rfl : hd = none :=
      (Except.ok.inj ((handle_limit_value_neg1 xml.hardtimelimit parseTime).symm.trans hh)).symm
    rcases hfields.1 with he | he <;> exact he
  · intro hcfg
    rw [hcfg] at hw
    obtain rfl : w = none :=
      (Except.ok.inj ((handle_limit_value_neg1 xml.walltimelimit parseTime).symm.trans hw)).symm
    exact hfields.2.2.1
  · intro hcfg
    rw [hcfg] at hm
    obtain rfl : m = none :=
      (Except.ok.inj ((handle_limit_value_neg1 xml.memlimit parseMemory).symm.trans hm)).symm
    exact hfields.2.2.2.1
  · intro hcfg
    rw [hcfg] at hc
    obtain rfl : c = none :=
      (Except.ok.inj ((handle_limit_value_neg1 xml.cpuCores parseCore).symm.trans hc)).symm
    exact hfields.2.2.2.2

theorem resolve_limits_positive_and_neg1_absent_witness :
    (0 : ℚ) < 7 ∧
      (⟨none, none, none, some 7, none, some 7⟩ : ResourceLimits).timelimit = none := by
  have h := resolve_limits_positive_and_neg1_absent
    (fun _ => Except.ok 7) (fun _ => Except.ok 7) (fun _ => Except.ok 7)
    ⟨some "5", none, some "5", some "5", some "4"⟩ ⟨some "-1", none, some "-1", none⟩
    ⟨none, none, none, some 7, none, some 7⟩ rfl
  exact ⟨h.2.2.1 7 rfl, h.2.2.2.2.2.1 rfl⟩

/-! ## Facts about task-set expansion -/

theorem exclude_lines_step_subset (G : String → String → List String) (S : String → String)
    (dn : String → String) (file : String) (acc : List String) (raw : String) :
    exclude_lines_step G S dn file acc raw ⊆ acc := by
  simp only [exclude_lines_step]
  split
  · exact fun _ h => h
  · exact foldl_subset remove_all remove_all_subset _ acc

theorem exclude_file_step_subset (G : String → String → List String) (S : String → String)
    (fs : String → List String) (dn : String → String) (acc : List String) (file : String) :
    exclude_file_step G S fs dn acc file ⊆ acc :=
  foldl_subset (exclude_lines_step G S dn file) (exclude_lines_step_subset G S dn file)
    (fs file) acc

theorem not_mem_foldl_remove_all {e : String} (l : List String) (acc : List String)
    (he : e ∈ l) : e ∉ l.foldl remove_all acc :=
  not_mem_foldl_of_kill remove_all remove_all_subset (fun acc => not_mem_remove_all acc e)
    l acc he

theorem not_mem_exclude_lines_step {G : String → String → List String} {S : String → String}
    {dn : String → String} {file e raw : String}
    (hcom : is_comment (py_strip raw) = false)
    (he : e ∈ expand_filename_pattern G S (py_strip raw) (dn file)) :
    ∀ acc, e ∉ exclude_lines_step G S dn file acc raw := by
  intro acc
  have hstep : exclude_lines_step G S dn file acc raw
      = (expand_filename_pattern G S (py_strip raw) (dn file)).foldl remove_all acc := by
    simp [exclude_lines_step, hcom]
  rw [hstep]
  exact not_mem_foldl_remove_all _ acc he

theorem not_mem_exclude_file_step {G : String → String → List String} {S : String → String}
    {fs : String → List String} {dn : String → String} {e file raw : String}
    (hraw : raw ∈ fs file) (hcom : is_comment (py_strip raw) = false)
    (he : e ∈ expand_filename_pattern G S (py_strip raw) (dn file)) :
    ∀ acc, e ∉ exclude_file_step G S fs dn acc file := fun acc =>
  not_mem_foldl_of_kill (exclude_lines_step G S dn file) (exclude_lines_step_subset G S dn file)
    (not_mem_exclude_lines_step hcom he) (fs file) acc hraw

theorem not_mem_apply_excludes {G : String → String → List String} {S : String → String}
    {bd e pat : String} {pats : List String} (hp : pat ∈ pats)
    (he : e ∈ expand_filename_pattern G S pat bd) (files : List String) :
    e ∉ apply_excludes G S pats bd files :=
  not_mem_foldl_of_kill
    (fun acc pat => (expand_filename_pattern G S pat bd).foldl remove_all acc)
    (fun acc _ => foldl_subset remove_all remove_all_subset _ acc)
    (fun acc => not_mem_foldl_remove_all _ acc he) pats files hp

theorem apply_excludesfiles_subset (G : String → String → List String) (S : String → String)
    (fs : String → List String) (dn : String → String) (pats : List String) (bd : String)
    (files : List String) : apply_excludesfiles G S fs dn pats bd files ⊆ files :=
  foldl_subset _
    (fun acc _ => foldl_subset _ (exclude_file_step_subset G S fs dn) _ acc) pats files

theorem not_mem_apply_excludesfiles {G : String → String → List String} {S : String → String}
    {fs : String → List String} {dn : String → String} {bd e pat f raw : String}
    {pats : List String} (hp : pat ∈ pats)
    (hf : f ∈ expand_filename_pattern G S pat bd) (hraw : raw ∈ fs f)
    (hcom : is_comment (py_strip raw) = false)
    (he : e ∈ expand_filename_pattern G S (py_strip raw) (dn f)) (files : List String) :
    e ∉ apply_excludesfiles G S fs dn pats bd files :=
  not_mem_foldl_of_kill
    (fun acc pat => (expand_filename_pattern G S pat bd).foldl
      (exclude_file_step G S fs dn) acc)
    (fun acc _ => foldl_subset _ (exclude_file_step_subset G S fs dn) _ acc)
    (fun acc => not_mem_foldl_of_kill _ (exclude_file_step_subset G S fs dn)
      (not_mem_exclude_file_step hraw hcom he) _ acc hf) pats files hp

/-- C3 (counterexample): the task-set expansion does not deduplicate: a file
matched by two include patterns appears twice in the expanded list (the source
only concatenates, model.py line 591). -/
theorem task_set_expansion_duplicate_counterexample :
    get_task_def_files_from_xml
        (fun p _ => if p = "a.c" then ["a.c"] else if p = "*.c" then ["a.c", "b.c"] else [])
        (fun s => s) (fun _ => []) (fun _ => "")
        ⟨["a.c", "*.c"], [], [], []⟩ "." = Except.ok ["a.c", "a.c", "b.c"] ∧
      (["a.c", "a.c", "b.c"] : List String).count "a.c" = 2 :=
  ⟨rfl, by decide⟩

/-- C3 (amended): the task-set expansion yields an ordered list in which each
single-pattern expansion is alphabetically sorted and from which every value
matched by an exclude pattern or by a non-comment line of an excludes file has
been removed entirely; identifiers matched by several include patterns appear
once per matching pattern (no deduplication). -/
theorem task_set_expansion_sorted_and_excluded
    (G : String → String → List String) (S : String → String)
    (fs : String → List String) (dn : String → String)
    (tag : SourcefilesTag) (base_dir e : String) (files : List String)
    (hok : get_task_def_files_from_xml G S fs dn tag base_dir = Except.ok files)
    (hexcl : (∃ pat ∈ tag.excludes, e ∈ expand_filename_pattern G S pat base_dir) ∨
      ∃ pat ∈ tag.excludesfiles, ∃ f ∈ expand_filename_pattern G S pat base_dir,
        ∃ raw ∈ fs f, is_comment (py_strip raw) = false ∧
          e ∈ expand_filename_pattern G S (py_strip raw) (dn f)) :
    e ∉ files ∧
      ∀ pattern bd, List.Sorted StrLe (expand_filename_pattern G S pattern bd) := by
  refine ⟨?_, fun pattern bd => expand_filename_pattern_sorted G S pattern bd⟩
  unfold get_task_def_files_from_xml at hok
  rcases hstage : process_includesfile_patterns G S fs dn base_dir tag.includesfiles
      (include_task_files G S tag.includes base_dir) with e2 | mid
  · rw [hstage] at hok; cases hok
  · rw [hstage] at hok
    simp only [Except.ok.injEq] at hok
    subst hok
    rcases hexcl with ⟨pat, hp, he⟩ | ⟨pat, hp, f, hf, raw, hraw, hcom, he⟩
    · exact fun hmem => not_mem_apply_excludes hp he mid
        (apply_excludesfiles_subset G S fs dn tag.excludesfiles base_dir _ hmem)
    · exact not_mem_apply_excludesfiles hp hf hraw hcom he _

theorem task_set_expansion_sorted_and_excluded_witness :
    ("b.c" : String) ∉ (["a.c"] : List String) :=
  (task_set_expansion_sorted_and_excluded
    (fun p _ => if p = "*.c" then ["b.c", "a.c"] else if p = "b.c" then ["b.c"] else [])
    (fun s => s) (fun _ => []) (fun _ => "")
    ⟨["*.c"], [], ["b.c"], []⟩ "." "b.c" ["a.c"] rfl
    (Or.inl (by decide))).1

/-! ## Facts about includesfile rejection -/

theorem process_includes_file_list_error (G : String → String → List String)
    (S : String → String) (fs : String → List String) (dn : String → String) {f : String}
    (hc : is_code (fs f) = true) :
    ∀ (files : List String) (acc : List String), f ∈ files →
      ∃ e, process_includes_file_list G S fs dn files acc = Except.error e := by
  intro files
  induction files with
  | nil => intro acc h; cases h
  | cons g rest ih =>
    intro acc hmem
    by_cases hg : is_code (fs g) = true
    · exact ⟨g ++ " seems to contain code instead of a set of source file names.",
        by simp [process_includes_file_list, hg]⟩
    · have hfr : f ∈ rest := by
        rcases List.mem_cons.mp hmem with rfl | h2
        · exact absurd hc hg
        · exact h2
      rcases ih (read_list_file_lines G S dn g (fs g) acc) hfr with ⟨e, he⟩
      refine ⟨e, ?_⟩
      simp only [process_includes_file_list]
      rw [if_neg hg]
      exact he

theorem process_includes_file_list_congr (G : String → String → List String)
    (S : String → String) (dn : String → String) {fs fs' : String → List String} {f : String}
    (hagree : ∀ g, g ≠ f → fs g = fs' g)
    (hc : is_code (fs f) = true) (hc' : is_code (fs' f) = true) :
    ∀ (files : List String) (acc : List String),
      process_includes_file_list G S fs dn files acc
        = process_includes_file_list G S fs' dn files acc := by
  intro files
  induction files with
  | nil => intro acc; rfl
  | cons g rest ih =>
    intro acc
    by_cases hgf : g = f
    · subst hgf
      simp only [process_includes_file_list]
      rw [if_pos hc, if_pos hc']
    · have hfg : fs g = fs' g := hagree g hgf
      simp only [process_includes_file_list, ← hfg]
      by_cases hg : is_code (fs g) = true
      · rw [if_pos hg, if_pos hg]
      · rw [if_neg hg, if_neg hg]
        exact ih _

theorem process_includesfile_patterns_error (G : String → String → List String)
    (S : String → String) (fs : String → List String) (dn : String → String)
    (bd : String) {pat f : String}
    (hf : f ∈ expand_filename_pattern G S pat bd) (hc : is_code (fs f) = true) :
    ∀ (pats : List String) (acc : List String), pat ∈ pats →
      ∃ e, process_includesfile_patterns G S fs dn bd pats acc = Except.error e := by
  intro pats
  induction pats with
  | nil => intro acc h; cases h
  | cons p rest ih =>
    intro acc hmem
    rcases hinner : process_includes_file_list G S fs dn
        (expand_filename_pattern G S p bd) acc with e2 | acc2
    · exact ⟨e2, by simp [process_includesfile_patterns, hinner]⟩
    · rcases List.mem_cons.mp hmem with rfl | h2
      · rcases process_includes_file_list_error G S fs dn hc
            (expand_filename_pattern G S pat bd) acc hf with ⟨e3, he3⟩
        rw [he3] at hinner; cases hinner
      · rcases ih acc2 h2 with ⟨e3, he3⟩
        exact ⟨e3, by simp [process_includesfile_patterns, hinner, he3]⟩

theorem process_includesfile_patterns_congr (G : String → String → List String)
    (S : String → String) (dn : String → String) (bd : String)
    {fs fs' : String → List String} {f : String}
    (hagree : ∀ g, g ≠ f → fs g = fs' g)
    (hc : is_code (fs f) = true) (hc' : is_code (fs' f) = true) :
    ∀ (pats : List String) (acc : List String),
      process_includesfile_patterns G S fs dn bd pats acc
        = process_includesfile_patterns G S fs' dn bd pats acc := by
  intro pats
  induction pats with
  | nil => intro acc; rfl
  | cons p rest ih =>
    intro acc
    simp only [process_includesfile_patterns]
    rw [← process_includes_file_list_congr G S dn hagree hc hc'
      (expand_filename_pattern G S p bd) acc]
    rcases hinner : process_includes_file_list G S fs dn
        (expand_filename_pattern G S p bd) acc with e2 | acc2
    · simp [hinner]
    · simp only [hinner]
      exact ih acc2

/-- C9: a list-reference file whose content contains a line starting with an
opening brace is rejected with a fatal error, and the rejection does not
depend on anything else in that file: the whole expansion yields the same
result for any file system that differs only in the content of the flagged
file (as long as it is still flagged), so none of its pattern lines is ever
read or expanded. -/
theorem includesfile_code_content_rejected (G : String → String → List String)
    (S : String → String) (fs : String → List String) (dn : String → String)
    (tag : SourcefilesTag) (base_dir pat f : String)
    (hpat : pat ∈ tag.includesfiles)
    (hf : f ∈ expand_filename_pattern G S pat base_dir)
    (hcode : is_code (fs f) = true) :
    (∃ e, get_task_def_files_from_xml G S fs dn tag base_dir = Except.error e) ∧
    ∀ fs' : String → List String, (∀ g, g ≠ f → fs g = fs' g) → is_code (fs' f) = true →
      get_task_def_files_from_xml G S fs dn tag base_dir
        = get_task_def_files_from_xml G S fs' dn tag base_dir := by
  rcases process_includesfile_patterns_error G S fs dn base_dir hf hcode
      tag.includesfiles (include_task_files G S tag.includes base_dir) hpat with ⟨e, he⟩
  constructor
  · exact ⟨e, by simp [get_task_def_files_from_xml, he]⟩
  · intro fs' hagree hcode'
    have hcongr := process_includesfile_patterns_congr G S dn base_dir hagree hcode hcode'
      tag.includesfiles (include_task_files G S tag.includes base_dir)
    simp [get_task_def_files_from_xml, he, ← hcongr]

theorem includesfile_code_content_rejected_witness :
    ∃ e, get_task_def_files_from_xml
      (fun p _ => if p = "list.txt" then ["list.txt"] else []) (fun s => s)
      (fun _ => ["\x7bcode"]) (fun _ => "") ⟨[], ["list.txt"], [], []⟩ "."
      = Except.error e :=
  (includesfile_code_content_rejected
    (fun p _ => if p = "list.txt" then ["list.txt"] else []) (fun s => s)
    (fun _ => ["\x7bcode"]) (fun _ => "") ⟨[], ["list.txt"], [], []⟩ "."
    "list.txt" "list.txt" (by decide) (by decide) (by decide)).1

/-! ## Facts about run construction and task routing -/

/-- C4 (code bug): a task definition declaring the same matched property twice
is not rejected: both declarations are stored in the expected-results dict
under the same key, the resolved property file, so the second silently
overwrites the first and the multiple-specification check
`1 < expected.length` (model.py line 789) can never fire. The run is built
with the ExpectedResult of the last duplicate instead of failing. -/
theorem duplicate_property_declaration_not_rejected :
    create_run_from_task_definition (fun p _ => [p]) (fun _ _ => false)
        ⟨["a.c"], [], [⟨"p.prp", some true, none⟩, ⟨"p.prp", some false, none⟩]⟩
        "t.yml" "." (some "p.prp")
      = Except.ok (some ⟨"t.yml", ["a.c"], [], [("p.prp", ⟨some false, none⟩)]⟩) := rfl

/-- C10: a task identifier is treated as a structured task definition exactly
when it ends with the four characters `.yml`: only then is it routed to
task-definition parsing (and gated by the append-conflict fatal error), and
the same test selects the `taskdef_` substitution prefix; any other
identifier, including one ending in `.yaml`, becomes a plain input-file run
with the `inputfile_` prefix. -/
theorem yml_extension_selects_task_definition (identifier : String) (hasAppend : Bool) :
    (str_endsWith identifier ".yml" = true →
      var_prefix_of identifier = "taskdef_" ∧
      (hasAppend = true → ∃ e, route_identifier identifier hasAppend = Except.error e) ∧
      (hasAppend = false →
        route_identifier identifier hasAppend = Except.ok RunCreation.fromTaskDefinition) ∧
      ∀ basename dirname abspath : String → String,
        (task_file_key_values basename dirname abspath identifier).map Prod.fst
          = ["taskdef_name", "taskdef_path", "taskdef_path_abs"]) ∧
    (str_endsWith identifier ".yml" = false →
      var_prefix_of identifier = "inputfile_" ∧
      route_identifier identifier hasAppend = Except.ok RunCreation.fromInputFile ∧
      ∀ basename dirname abspath : String → String,
        (task_file_key_values basename dirname abspath identifier).map Prod.fst
          = ["inputfile_name", "inputfile_path", "inputfile_path_abs"]) := by
  constructor
  · intro hyml
    refine ⟨by simp [var_prefix_of, hyml], ?_, ?_, ?_⟩
    · intro ha
      exact ⟨"Cannot combine append and task-definition files in the same tasks tag.",
        by simp [route_identifier, hyml, ha]⟩
    · intro ha
      simp [route_identifier, hyml, ha]
    · intro bn dn ab
      simp [task_file_key_values, var_prefix_of, hyml]
  · intro hyml
    refine ⟨by simp [var_prefix_of, hyml], by simp [route_identifier, hyml], ?_⟩
    intro bn dn ab
    simp [task_file_key_values, var_prefix_of, hyml]

theorem yml_extension_selects_task_definition_witness :
    var_prefix_of "a.yaml" = "inputfile_" ∧
      route_identifier "a.yaml" false = Except.ok RunCreation.fromInputFile := by
  have h := (yml_extension_selects_task_definition "a.yaml" false).2 (by decide)
  exact ⟨h.1, h.2.1⟩
